import Mathlib

/-!
Verification of the slug, post-store, session and CSRF logic of a small
single-user blogging engine (Go).  The Go functions are shallowly embedded:
the SQLite tables `posts` and `sessions` become Lean lists, machine strings
become Lean `String`/`List Nat` (bytes), wall-clock timestamps become `Int`,
and the unbounded `for {}` loop of `ensureUniqueSlug` takes explicit fuel
(a pure embedding artifact: the Go loop has no bound).
-/

namespace GoBlog

/-- Embeds the `Post` row of the `posts` table
(`id, title, slug, content, published, created_at`). -/
structure Post where
  id : Int
  title : String
  slug : String
  content : String
  published : Bool
  createdAt : Int
deriving Repr, DecidableEq

/-- Embeds the `Session` row of the `sessions` table
(`token, user_id, expires_at`). -/
structure Session where
  token : String
  userId : Int
  expiresAt : Int
deriving Repr, DecidableEq

/-- `reservedSlugs` from `templates.go`: paths that cannot be used as post
slugs. -/
def reservedSlugs : List String :=
  ["admin", "logout", "feed", "new", "edit", "delete", "settings", "static"]

/-- `isReservedSlug` from `templates.go`. -/
def isReservedSlug (slug : String) : Bool :=
  reservedSlugs.contains slug

/-- Character class of the regex `[^a-z0-9-]` in `generateSlug`: the
characters that are kept. -/
def isSlugChar (c : Char) : Bool :=
  (('a' ≤ c) && (c ≤ 'z')) || (('0' ≤ c) && (c ≤ '9')) || (c == '-')

/-- The regex step replacing every run `-+` by a single `-`
(`regexp.MustCompile` with pattern dash-plus, `ReplaceAllString` with `-`). -/
def collapseHyphens : List Char → List Char
  | [] => []
  | [c] => [c]
  | c :: d :: rest =>
    if c == '-' && d == '-' then collapseHyphens (d :: rest)
    else c :: collapseHyphens (d :: rest)

/-- `strings.Trim(slug, "-")`: drop leading and trailing hyphens. -/
def trimHyphens (l : List Char) : List Char :=
  ((l.dropWhile (fun c => c == '-')).reverse.dropWhile (fun c => c == '-')).reverse

/-- The Unicode simple lowercase mapping for code points above ASCII
(Unicode 14.0), as `(lo, hi, stride, delta)` ranges: a code point `r` with
`lo ≤ r ≤ hi` and `(r - lo) % stride = 0` lowers to `r + delta`.  This is
the mapping Go's `unicode.CaseRanges` table encodes (its alternating
upper/lower ranges appear here with stride 2). -/
def goLowerRanges : List (Nat × Nat × Nat × Int) := [
  (192, 214, 1, 32), (216, 222, 1, 32), (256, 302, 2, 1), (304, 304, 1, -199),
  (306, 310, 2, 1), (313, 327, 2, 1), (330, 374, 2, 1), (376, 376, 1, -121),
  (377, 381, 2, 1), (385, 385, 1, 210), (386, 388, 2, 1), (390, 390, 1, 206),
  (391, 391, 1, 1), (393, 394, 1, 205), (395, 395, 1, 1), (398, 398, 1, 79),
  (399, 399, 1, 202), (400, 400, 1, 203), (401, 401, 1, 1), (403, 403, 1, 205),
  (404, 404, 1, 207), (406, 406, 1, 211), (407, 407, 1, 209), (408, 408, 1, 1),
  (412, 412, 1, 211), (413, 413, 1, 213), (415, 415, 1, 214), (416, 420, 2, 1),
  (422, 422, 1, 218), (423, 423, 1, 1), (425, 425, 1, 218), (428, 428, 1, 1),
  (430, 430, 1, 218), (431, 431, 1, 1), (433, 434, 1, 217), (435, 437, 2, 1),
  (439, 439, 1, 219), (440, 440, 1, 1), (444, 444, 1, 1), (452, 452, 1, 2),
  (453, 453, 1, 1), (455, 455, 1, 2), (456, 456, 1, 1), (458, 458, 1, 2),
  (459, 475, 2, 1), (478, 494, 2, 1), (497, 497, 1, 2), (498, 500, 2, 1),
  (502, 502, 1, -97), (503, 503, 1, -56), (504, 542, 2, 1), (544, 544, 1, -130),
  (546, 562, 2, 1), (570, 570, 1, 10795), (571, 571, 1, 1), (573, 573, 1, -163),
  (574, 574, 1, 10792), (577, 577, 1, 1), (579, 579, 1, -195), (580, 580, 1, 69),
  (581, 581, 1, 71), (582, 590, 2, 1), (880, 882, 2, 1), (886, 886, 1, 1),
  (895, 895, 1, 116), (902, 902, 1, 38), (904, 906, 1, 37), (908, 908, 1, 64),
  (910, 911, 1, 63), (913, 929, 1, 32), (931, 939, 1, 32), (975, 975, 1, 8),
  (984, 1006, 2, 1), (1012, 1012, 1, -60), (1015, 1015, 1, 1), (1017, 1017, 1, -7),
  (1018, 1018, 1, 1), (1021, 1023, 1, -130), (1024, 1039, 1, 80), (1040, 1071, 1, 32),
  (1120, 1152, 2, 1), (1162, 1214, 2, 1), (1216, 1216, 1, 15), (1217, 1229, 2, 1),
  (1232, 1326, 2, 1), (1329, 1366, 1, 48), (4256, 4293, 1, 7264), (4295, 4295, 1, 7264),
  (4301, 4301, 1, 7264), (5024, 5103, 1, 38864), (5104, 5109, 1, 8), (7312, 7354, 1, -3008),
  (7357, 7359, 1, -3008), (7680, 7828, 2, 1), (7838, 7838, 1, -7615), (7840, 7934, 2, 1),
  (7944, 7951, 1, -8), (7960, 7965, 1, -8), (7976, 7983, 1, -8), (7992, 7999, 1, -8),
  (8008, 8013, 1, -8), (8025, 8031, 2, -8), (8040, 8047, 1, -8), (8072, 8079, 1, -8),
  (8088, 8095, 1, -8), (8104, 8111, 1, -8), (8120, 8121, 1, -8), (8122, 8123, 1, -74),
  (8124, 8124, 1, -9), (8136, 8139, 1, -86), (8140, 8140, 1, -9), (8152, 8153, 1, -8),
  (8154, 8155, 1, -100), (8168, 8169, 1, -8), (8170, 8171, 1, -112), (8172, 8172, 1, -7),
  (8184, 8185, 1, -128), (8186, 8187, 1, -126), (8188, 8188, 1, -9), (8486, 8486, 1, -7517),
  (8490, 8490, 1, -8383), (8491, 8491, 1, -8262), (8498, 8498, 1, 28), (8544, 8559, 1, 16),
  (8579, 8579, 1, 1), (9398, 9423, 1, 26), (11264, 11311, 1, 48), (11360, 11360, 1, 1),
  (11362, 11362, 1, -10743), (11363, 11363, 1, -3814), (11364, 11364, 1, -10727), (11367, 11371, 2, 1),
  (11373, 11373, 1, -10780), (11374, 11374, 1, -10749), (11375, 11375, 1, -10783), (11376, 11376, 1, -10782),
  (11378, 11378, 1, 1), (11381, 11381, 1, 1), (11390, 11391, 1, -10815), (11392, 11490, 2, 1),
  (11499, 11501, 2, 1), (11506, 11506, 1, 1), (42560, 42604, 2, 1), (42624, 42650, 2, 1),
  (42786, 42798, 2, 1), (42802, 42862, 2, 1), (42873, 42875, 2, 1), (42877, 42877, 1, -35332),
  (42878, 42886, 2, 1), (42891, 42891, 1, 1), (42893, 42893, 1, -42280), (42896, 42898, 2, 1),
  (42902, 42920, 2, 1), (42922, 42922, 1, -42308), (42923, 42923, 1, -42319), (42924, 42924, 1, -42315),
  (42925, 42925, 1, -42305), (42926, 42926, 1, -42308), (42928, 42928, 1, -42258), (42929, 42929, 1, -42282),
  (42930, 42930, 1, -42261), (42931, 42931, 1, 928), (42932, 42946, 2, 1), (42948, 42948, 1, -48),
  (42949, 42949, 1, -42307), (42950, 42950, 1, -35384), (42951, 42953, 2, 1), (42960, 42960, 1, 1),
  (42966, 42968, 2, 1), (42997, 42997, 1, 1), (65313, 65338, 1, 32), (66560, 66599, 1, 40),
  (66736, 66771, 1, 40), (66928, 66938, 1, 39), (66940, 66954, 1, 39), (66956, 66962, 1, 39),
  (66964, 66965, 1, 39), (68736, 68786, 1, 64), (71840, 71871, 1, 32), (93760, 93791, 1, 32),
  (125184, 125217, 1, 34)]

/-- Go `unicode.ToLower` for one rune, as applied per rune by
`strings.ToLower`: ASCII fast path (`A`-`Z` shifted by 32), otherwise the
Unicode simple lowercase mapping looked up in `goLowerRanges` (Go
binary-searches its equivalent table; this linear scan reads the same
mapping). -/
def goToLower (c : Char) : Char :=
  let r := c.toNat
  if r ≤ 127 then
    if 65 ≤ r && r ≤ 90 then Char.ofNat (r + 32) else c
  else
    match goLowerRanges.find? (fun e =>
        e.1 ≤ r && r ≤ e.2.1 && (r - e.1) % e.2.2.1 == 0) with
    | some e => Char.ofNat (Int.toNat ((r : Int) + e.2.2.2))
    | none => c

/-- `strings.ToLower`: lowercase every rune with `unicode.ToLower` (the
ASCII fast path inside `strings.ToLower` is an optimization with the same
result). -/
def lowerStep (l : List Char) : List Char := l.map goToLower

/-- `strings.ReplaceAll(slug, " ", "-")`. -/
def spaceStep (l : List Char) : List Char :=
  l.map (fun c => if c == ' ' then '-' else c)

/-- The regex step deleting every character outside `[a-z0-9-]`. -/
def stripStep (l : List Char) : List Char := l.filter isSlugChar

/-- `generateSlug` from `templates.go`: lowercase, spaces to hyphens, strip
non-slug characters, collapse hyphen runs, trim hyphens. -/
def generateSlug (title : String) : String :=
  String.mk (trimHyphens (collapseHyphens (stripStep (spaceStep (lowerStep title.data)))))

example : generateSlug "Hello, World!" = "hello-world" := by decide
example : generateSlug "İstanbul" = "istanbul" := by decide
example : generateSlug "Kelvin" = "kelvin" := by decide
example : generateSlug "It's a Test" = "its-a-test" := by decide
example : generateSlug "---Hello" = "hello" := by decide
example : generateSlug "!@#$%" = "" := by decide

/-- The `SELECT COUNT(*) FROM posts WHERE slug = ? [AND id != ?]` query of
`ensureUniqueSlug`: the second form is used exactly when `excludeID > 0`. -/
def slugConflictCount (posts : List Post) (candidate : String) (excludeID : Int) : Nat :=
  if excludeID > 0 then
    (posts.filter (fun p => p.slug == candidate && p.id != excludeID)).length
  else
    (posts.filter (fun p => p.slug == candidate)).length

/-- A candidate is rejected by the `ensureUniqueSlug` loop iff it is reserved
or the conflict count is positive. -/
def slugBad (posts : List Post) (excludeID : Int) (candidate : String) : Bool :=
  isReservedSlug candidate || slugConflictCount posts candidate excludeID != 0

/-- The `for {}` loop body of `ensureUniqueSlug`: reserved check first, then
the store query; on either hit move to `slug ++ "-" ++ suffix` and bump the
suffix.  `fuel` bounds the number of iterations (embedding artifact for the
unbounded Go loop). -/
def ensureUniqueSlugLoop (posts : List Post) (slug : String) (excludeID : Int) :
    String → Nat → Nat → Option String
  | _, _, 0 => none
  | candidate, suffix, fuel + 1 =>
    if isReservedSlug candidate then
      ensureUniqueSlugLoop posts slug excludeID (slug ++ "-" ++ toString suffix) (suffix + 1) fuel
    else if slugConflictCount posts candidate excludeID != 0 then
      ensureUniqueSlugLoop posts slug excludeID (slug ++ "-" ++ toString suffix) (suffix + 1) fuel
    else
      some candidate

/-- `ensureUniqueSlug` from `templates.go`: empty slug is returned unchanged;
otherwise run the resolution loop starting at `candidate = slug`,
`suffix = 2`. -/
def ensureUniqueSlug (posts : List Post) (slug : String) (excludeID : Int) (fuel : Nat) :
    Option String :=
  if slug = "" then some "" else ensureUniqueSlugLoop posts slug excludeID slug 2 fuel

/-- The k-th candidate tried by `ensureUniqueSlug` on base `b`:
`b, b-2, b-3, ...`. -/
def candidateAt (base : String) : Nat → String
  | 0 => base
  | k + 1 => base ++ "-" ++ toString (k + 2)

/-- The `slug := generateSlug(title); if slug == "" { slug = "untitled" }`
prologue shared by `createPost` and `updatePost`. -/
def baseSlug (title : String) : String :=
  if generateSlug title = "" then "untitled" else generateSlug title

/-- `createPost` from `templates.go` over the list model: allocate a unique
slug (`excludeID = 0`), then `INSERT` a new row.  `newId` and `createdAt` are
the values the store assigns (`AUTOINCREMENT` / `CURRENT_TIMESTAMP`). -/
def createPost (posts : List Post) (newId : Int) (createdAt : Int)
    (title content : String) (published : Bool) (fuel : Nat) :
    Option (String × List Post) :=
  match ensureUniqueSlug posts (baseSlug title) 0 fuel with
  | none => none
  | some uniqueSlug =>
    some (uniqueSlug, posts ++ [⟨newId, title, uniqueSlug, content, published, createdAt⟩])

/-- `updatePost` from `templates.go`: allocate a unique slug excluding the
post's own id, then `UPDATE ... WHERE id = ?` (rewrites every row whose id
matches, leaves the rest, matches zero rows when the id is absent). -/
def updatePost (posts : List Post) (id : Int) (title content : String)
    (published : Bool) (fuel : Nat) : Option (String × List Post) :=
  match ensureUniqueSlug posts (baseSlug title) id fuel with
  | none => none
  | some uniqueSlug =>
    some (uniqueSlug,
      posts.map (fun p =>
        if p.id == id then
          { p with title := title, slug := uniqueSlug, content := content,
                   published := published }
        else p))

/-- `deletePost` from `templates.go`: `DELETE FROM posts WHERE id = ?`. -/
def deletePost (posts : List Post) (id : Int) : List Post :=
  posts.filter (fun p => p.id != id)

/-- The `UNIQUE INDEX idx_posts_slug` backstop (from `migrateDB`): an
`INSERT` succeeds only when no stored row already carries the slug, and
fails with a constraint violation otherwise. -/
def insertPostUnique (posts : List Post) (p : Post) : Option (List Post) :=
  if posts.any (fun q => q.slug == p.slug) then none else some (posts ++ [p])

/-- `createPost` with the check/insert race made explicit: the slug
availability check runs against `postsAtCheck`, the `INSERT` (guarded by the
unique index) against `postsAtInsert`; a concurrent create may have changed
the table in between.  With `postsAtCheck = postsAtInsert` this is the
sequential `createPost`.  Errors are the strings `createPost` wraps. -/
def createPostRacy (postsAtCheck postsAtInsert : List Post) (newId : Int)
    (createdAt : Int) (title content : String) (published : Bool) (fuel : Nat) :
    Except String (String × List Post) :=
  match ensureUniqueSlug postsAtCheck (baseSlug title) 0 fuel with
  | none => .error "generating unique slug"
  | some uniqueSlug =>
    match insertPostUnique postsAtInsert
        ⟨newId, title, uniqueSlug, content, published, createdAt⟩ with
    | none => .error "inserting post"
    | some posts2 => .ok (uniqueSlug, posts2)

/-- `getSession` from `handlers.go`:
`SELECT ... FROM sessions WHERE token = ? AND expires_at > ?` with the
current time as second parameter; `ErrNoRows` becomes `none`. -/
def getSession (sessions : List Session) (token : String) (now : Int) :
    Option Session :=
  sessions.find? (fun s => s.token == token && decide (s.expiresAt > now))

/-- `cleanupExpiredSessions` from `handlers.go`:
`DELETE FROM sessions WHERE expires_at < ?` with the current time as the
parameter; the rows kept are those rejected by the `WHERE` clause. -/
def cleanupExpiredSessions (sessions : List Session) (now : Int) : List Session :=
  sessions.filter (fun s => !(decide (s.expiresAt < now)))

/-- The loop of Go `crypto/subtle.ConstantTimeCompare` over byte lists:
fold `v |= x[i] ^ y[i]` over both lists, also counting the iterations
executed (`.2`), which is the cost model for the timing claim. -/
def ctFold (v : Nat) : List Nat → List Nat → Nat × Nat
  | x :: xs, y :: ys =>
    let r := ctFold (v ||| (x ^^^ y)) xs ys
    (r.1, r.2 + 1)
  | _, _ => (v, 0)

/-- Go `crypto/subtle.ConstantTimeCompare`: 0 on length mismatch, else 1
exactly when the accumulated or-of-xors is 0 (`ConstantTimeByteEq(v, 0)`). -/
def constantTimeCompare (x y : List Nat) : Nat :=
  if x.length ≠ y.length then 0
  else if (ctFold 0 x y).1 = 0 then 1 else 0

/-- Number of byte-loop iterations `ConstantTimeCompare` executes on `x, y`:
zero after the length guard fails, else the loop count of `ctFold`. -/
def ctCompareSteps (x y : List Nat) : Nat :=
  if x.length ≠ y.length then 0 else (ctFold 0 x y).2

/-- `validateCSRF` from `handlers.go`, over the byte lists of the two tokens
(the empty string is the empty list): false if either token is empty,
else the result of the constant-time comparison. -/
def validateCSRF (cookieToken formToken : List Nat) : Bool :=
  if cookieToken == [] || formToken == [] then false
  else constantTimeCompare cookieToken formToken == 1

/-- Spec-side statement of candidate availability: the candidate is not a
reserved word and is not the slug of an existing post whose id differs from
`excludeID` (with `excludeID = 0` excluding no post, since stored ids are
positive). -/
def SlugFree (posts : List Post) (excludeID : Int) (c : String) : Prop :=
  isReservedSlug c = false ∧ ∀ p ∈ posts, p.id ≠ excludeID → p.slug ≠ c

instance (posts : List Post) (e : Int) (c : String) : Decidable (SlugFree posts e c) := by
  unfold SlugFree; infer_instance

/-- The spec's slug-uniqueness invariant: no two posts with distinct ids
share a slug, and no stored slug is a reserved route name. -/
def SlugInvariant (posts : List Post) : Prop :=
  (∀ p ∈ posts, ∀ q ∈ posts, p.id ≠ q.id → p.slug ≠ q.slug) ∧
  (∀ p ∈ posts, isReservedSlug p.slug = false)

instance (posts : List Post) : Decidable (SlugInvariant posts) := by
  unfold SlugInvariant; infer_instance

/-- Post-store states reachable from the empty table through the three
post-store operations (a create or update step records the allocation
succeeding with the given result). -/
inductive Reachable : List Post → Prop where
  | init : Reachable []
  | create (posts : List Post) (newId createdAt : Int) (title content : String)
      (published : Bool) (fuel : Nat) (s : String) (posts2 : List Post) :
      Reachable posts →
      createPost posts newId createdAt title content published fuel = some (s, posts2) →
      Reachable posts2
  | update (posts : List Post) (id : Int) (title content : String)
      (published : Bool) (fuel : Nat) (s : String) (posts2 : List Post) :
      Reachable posts →
      updatePost posts id title content published fuel = some (s, posts2) →
      Reachable posts2
  | remove (posts : List Post) (id : Int) :
      Reachable posts → Reachable (deletePost posts id)

/-! ### Lemmas about the slug allocator loop -/

theorem candidateAt_succ (b : String) (k : Nat) :
    candidateAt b (k + 1) = b ++ "-" ++ toString (k + 2) := rfl

theorem ensureUniqueSlugLoop_sound (posts : List Post) (b : String) (e : Int) :
    ∀ fuel k s,
      ensureUniqueSlugLoop posts b e (candidateAt b k) (k + 2) fuel = some s →
      ∃ m, k ≤ m ∧ s = candidateAt b m ∧ slugBad posts e (candidateAt b m) = false ∧
        ∀ j, k ≤ j → j < m → slugBad posts e (candidateAt b j) = true := by
  intro fuel
  induction fuel with
  | zero => intro k s h; simp [ensureUniqueSlugLoop] at h
  | succ n ih =>
    intro k s h
    rw [ensureUniqueSlugLoop] at h
    by_cases hr : isReservedSlug (candidateAt b k) = true
    · rw [if_pos hr] at h
      rw [← candidateAt_succ] at h
      obtain ⟨m, hm, hs, hgood, hbad⟩ := ih (k + 1) s h
      refine ⟨m, Nat.le_trans (Nat.le_succ k) hm, hs, hgood, fun j hj1 hj2 => ?_⟩
      rcases Nat.eq_or_lt_of_le hj1 with rfl | hj
      · simp [slugBad, hr]
      · exact hbad j hj hj2
    · rw [if_neg hr] at h
      by_cases hc : (slugConflictCount posts (candidateAt b k) e != 0) = true
      · rw [if_pos hc] at h
        rw [← candidateAt_succ] at h
        obtain ⟨m, hm, hs, hgood, hbad⟩ := ih (k + 1) s h
        refine ⟨m, Nat.le_trans (Nat.le_succ k) hm, hs, hgood, fun j hj1 hj2 => ?_⟩
        rcases Nat.eq_or_lt_of_le hj1 with rfl | hj
        · simp [slugBad, hc]
        · exact hbad j hj hj2
      · rw [if_neg hc] at h
        refine ⟨k, Nat.le_refl k, (Option.some.injEq _ _ ▸ h).symm, ?_,
          fun j hj1 hj2 => absurd (Nat.lt_of_le_of_lt hj1 hj2) (Nat.lt_irrefl k)⟩
        simp only [slugBad, Bool.or_eq_false_iff]
        exact ⟨Bool.eq_false_iff.mpr hr, Bool.eq_false_iff.mpr hc⟩

theorem ensureUniqueSlugLoop_complete (posts : List Post) (b : String) (e : Int) :
    ∀ fuel k,
      (∃ m, k ≤ m ∧ m < k + fuel ∧ slugBad posts e (candidateAt b m) = false) →
      ∃ s, ensureUniqueSlugLoop posts b e (candidateAt b k) (k + 2) fuel = some s := by
  intro fuel
  induction fuel with
  | zero => intro k ⟨m, h1, h2, _⟩; omega
  | succ n ih =>
    intro k ⟨m, hkm, hlt, hfree⟩
    rw [ensureUniqueSlugLoop]
    by_cases hr : isReservedSlug (candidateAt b k) = true
    · rw [if_pos hr, ← candidateAt_succ]
      refine ih (k + 1) ⟨m, ?_, by omega, hfree⟩
      rcases Nat.eq_or_lt_of_le hkm with rfl | h
      · simp [slugBad, hr] at hfree
      · omega
    · rw [if_neg hr]
      by_cases hc : (slugConflictCount posts (candidateAt b k) e != 0) = true
      · rw [if_pos hc, ← candidateAt_succ]
        refine ih (k + 1) ⟨m, ?_, by omega, hfree⟩
        rcases Nat.eq_or_lt_of_le hkm with rfl | h
        · simp [slugBad, hc] at hfree
        · omega
      · rw [if_neg hc]
        exact ⟨candidateAt b k, rfl⟩

theorem ensureUniqueSlugLoop_result_good (posts : List Post) (b : String) (e : Int) :
    ∀ fuel cand suffix s,
      ensureUniqueSlugLoop posts b e cand suffix fuel = some s →
      slugBad posts e s = false := by
  intro fuel
  induction fuel with
  | zero => intro cand suffix s h; simp [ensureUniqueSlugLoop] at h
  | succ n ih =>
    intro cand suffix s h
    rw [ensureUniqueSlugLoop] at h
    by_cases hr : isReservedSlug cand = true
    · rw [if_pos hr] at h; exact ih _ _ _ h
    · rw [if_neg hr] at h
      by_cases hc : (slugConflictCount posts cand e != 0) = true
      · rw [if_pos hc] at h; exact ih _ _ _ h
      · rw [if_neg hc] at h
        have hs : cand = s := Option.some.injEq _ _ ▸ h
        subst hs
        simp only [slugBad, Bool.or_eq_false_iff]
        exact ⟨Bool.eq_false_iff.mpr hr, Bool.eq_false_iff.mpr hc⟩

theorem ensureUniqueSlug_result_good (posts : List Post) (b : String) (e : Int)
    (fuel : Nat) (s : String) (hb : b ≠ "")
    (h : ensureUniqueSlug posts b e fuel = some s) :
    slugBad posts e s = false := by
  rw [ensureUniqueSlug, if_neg hb] at h
  exact ensureUniqueSlugLoop_result_good posts b e fuel b 2 s h

theorem slugBad_false_iff_slugFree (posts : List Post) (e : Int) (c : String)
    (hpos : ∀ p ∈ posts, 0 < p.id) :
    slugBad posts e c = false ↔ SlugFree posts e c := by
  simp only [slugBad, SlugFree, Bool.or_eq_false_iff, bne_eq_false_iff_eq,
    slugConflictCount]
  by_cases he : e > 0
  · rw [if_pos he]
    simp only [List.length_eq_zero, List.filter_eq_nil_iff, Bool.and_eq_true,
      beq_iff_eq, bne_iff_ne, not_and]
    constructor
    · rintro ⟨h1, h2⟩
      exact ⟨h1, fun p hp hid hslug => h2 p hp hslug hid⟩
    · rintro ⟨h1, h2⟩
      exact ⟨h1, fun p hp hslug hid => h2 p hp hid hslug⟩
  · rw [if_neg he]
    simp only [List.length_eq_zero, List.filter_eq_nil_iff, beq_iff_eq]
    constructor
    · rintro ⟨h1, h2⟩
      exact ⟨h1, fun p hp _ => h2 p hp⟩
    · rintro ⟨h1, h2⟩
      refine ⟨h1, fun p hp => h2 p hp ?_⟩
      have := hpos p hp
      omega

theorem slugBad_false_excluded (posts : List Post) (e : Int) (s : String)
    (h : slugBad posts e s = false) :
    isReservedSlug s = false ∧ ∀ q ∈ posts, q.id ≠ e → q.slug ≠ s := by
  simp only [slugBad, Bool.or_eq_false_iff, bne_eq_false_iff_eq,
    slugConflictCount] at h
  obtain ⟨h1, h2⟩ := h
  refine ⟨h1, ?_⟩
  by_cases he : e > 0
  · rw [if_pos he] at h2
    simp only [List.length_eq_zero, List.filter_eq_nil_iff, Bool.and_eq_true,
      beq_iff_eq, bne_iff_ne, not_and] at h2
    exact fun q hq hid hslug => h2 q hq hslug hid
  · rw [if_neg he] at h2
    simp only [List.length_eq_zero, List.filter_eq_nil_iff, beq_iff_eq] at h2
    exact fun q hq _ => h2 q hq

theorem slugBad_false_fresh (posts : List Post) (s : String)
    (h : slugBad posts 0 s = false) :
    ∀ q ∈ posts, q.slug ≠ s := by
  simp only [slugBad, Bool.or_eq_false_iff, bne_eq_false_iff_eq,
    slugConflictCount] at h
  obtain ⟨-, h2⟩ := h
  rw [if_neg (by omega)] at h2
  simp only [List.length_eq_zero, List.filter_eq_nil_iff, beq_iff_eq] at h2
  exact h2

theorem baseSlug_ne_empty (title : String) : baseSlug title ≠ "" := by
  rw [baseSlug]
  split
  · intro h; simp at h
  · assumption

/-! ### Preservation of the slug-uniqueness invariant -/

theorem createPost_preserves_invariant (posts : List Post) (newId createdAt : Int)
    (title content : String) (published : Bool) (fuel : Nat) (s : String)
    (posts2 : List Post) (hinv : SlugInvariant posts)
    (h : createPost posts newId createdAt title content published fuel = some (s, posts2)) :
    SlugInvariant posts2 := by
  rw [createPost] at h
  cases halloc : ensureUniqueSlug posts (baseSlug title) 0 fuel with
  | none => rw [halloc] at h; simp at h
  | some u =>
    rw [halloc] at h
    simp only [Option.some.injEq, Prod.mk.injEq] at h
    obtain ⟨rfl, rfl⟩ := h
    have hgood := ensureUniqueSlug_result_good posts (baseSlug title) 0 fuel u
      (baseSlug_ne_empty title) halloc
    have hfresh := slugBad_false_fresh posts u hgood
    have hres := (slugBad_false_excluded posts 0 u hgood).1
    constructor
    · intro p hp q hq hne
      rcases List.mem_append.1 hp with hp1 | hp1 <;>
        rcases List.mem_append.1 hq with hq1 | hq1
      · exact hinv.1 p hp1 q hq1 hne
      · have hq2 : q = ⟨newId, title, u, content, published, createdAt⟩ :=
          List.mem_singleton.1 hq1
        subst hq2
        exact hfresh p hp1
      · have hp2 : p = ⟨newId, title, u, content, published, createdAt⟩ :=
          List.mem_singleton.1 hp1
        subst hp2
        exact fun hslug => hfresh q hq1 hslug.symm
      · have hp2 : p = ⟨newId, title, u, content, published, createdAt⟩ :=
          List.mem_singleton.1 hp1
        have hq2 : q = ⟨newId, title, u, content, published, createdAt⟩ :=
          List.mem_singleton.1 hq1
        subst hp2; subst hq2
        exact absurd rfl hne
    · intro p hp
      rcases List.mem_append.1 hp with hp1 | hp1
      · exact hinv.2 p hp1
      · have hp2 : p = ⟨newId, title, u, content, published, createdAt⟩ :=
          List.mem_singleton.1 hp1
        subst hp2
        exact hres

theorem updatePost_preserves_invariant (posts : List Post) (id : Int)
    (title content : String) (published : Bool) (fuel : Nat) (s : String)
    (posts2 : List Post) (hinv : SlugInvariant posts)
    (h : updatePost posts id title content published fuel = some (s, posts2)) :
    SlugInvariant posts2 := by
  rw [updatePost] at h
  cases halloc : ensureUniqueSlug posts (baseSlug title) id fuel with
  | none => rw [halloc] at h; simp at h
  | some u =>
    rw [halloc] at h
    simp only [Option.some.injEq, Prod.mk.injEq] at h
    obtain ⟨rfl, rfl⟩ := h
    have hgood := ensureUniqueSlug_result_good posts (baseSlug title) id fuel u
      (baseSlug_ne_empty title) halloc
    obtain ⟨hres, hfresh⟩ := slugBad_false_excluded posts id u hgood
    constructor
    · intro p2 hp2 q2 hq2 hne
      obtain ⟨p, hp, rfl⟩ := List.mem_map.1 hp2
      obtain ⟨q, hq, rfl⟩ := List.mem_map.1 hq2
      by_cases hpid : p.id = id <;> by_cases hqid : q.id = id
      · simp only [hpid, hqid, beq_self_eq_true, if_pos] at hne ⊢
        exact absurd rfl hne
      · simp only [hpid, hqid, beq_self_eq_true, if_pos,
          beq_iff_eq, if_neg hqid] at hne ⊢
        exact fun hslug => hfresh q hq hqid hslug.symm
      · simp only [hpid, hqid, beq_self_eq_true, if_pos,
          beq_iff_eq, if_neg hpid] at hne ⊢
        exact hfresh p hp hpid
      · simp only [beq_iff_eq, if_neg hpid, if_neg hqid] at hne ⊢
        exact hinv.1 p hp q hq hne
    · intro p2 hp2
      obtain ⟨p, hp, rfl⟩ := List.mem_map.1 hp2
      by_cases hpid : p.id = id
      · simp only [hpid, beq_self_eq_true, if_pos]
        exact hres
      · simp only [beq_iff_eq, if_neg hpid]
        exact hinv.2 p hp

theorem deletePost_preserves_invariant (posts : List Post) (id : Int)
    (hinv : SlugInvariant posts) : SlugInvariant (deletePost posts id) := by
  constructor
  · intro p hp q hq hne
    exact hinv.1 p (List.mem_filter.1 hp).1 q (List.mem_filter.1 hq).1 hne
  · intro p hp
    exact hinv.2 p (List.mem_filter.1 hp).1

/-- C3: in every store state reachable through the post-store operations
(create, update, delete) from the empty table, no two posts with distinct
ids share a slug and no stored slug is a reserved route name. -/
theorem slugInvariant_of_reachable (posts : List Post) (h : Reachable posts) :
    SlugInvariant posts := by
  induction h with
  | init => exact ⟨fun p hp => absurd hp (List.not_mem_nil p),
      fun p hp => absurd hp (List.not_mem_nil p)⟩
  | create ps newId createdAt title content published fuel s ps2 _ heq ih =>
    exact createPost_preserves_invariant ps newId createdAt title content published
      fuel s ps2 ih heq
  | update ps id title content published fuel s ps2 _ heq ih =>
    exact updatePost_preserves_invariant ps id title content published fuel s ps2 ih heq
  | remove ps id _ ih => exact deletePost_preserves_invariant ps id ih

/-! ### Claim theorems: slug allocation and the post store -/

/-- C1: for a non-empty base `b` (with enough fuel to reach a free
candidate) `ensureUniqueSlug` returns the first candidate of the sequence
`b, b-2, b-3, ...` that is neither reserved nor the slug of an existing
post with a different id (`excludeID = 0` excluding no post); an empty
base is returned unchanged. -/
theorem ensureUniqueSlug_returns_first_free_candidate (posts : List Post)
    (b : String) (e : Int) (fuel : Nat)
    (hpos : ∀ p ∈ posts, 0 < p.id)
    (hgood : b ≠ "" → ∃ m, m < fuel ∧ SlugFree posts e (candidateAt b m)) :
    (b = "" → ensureUniqueSlug posts b e fuel = some "") ∧
    (b ≠ "" → ∃ k, ensureUniqueSlug posts b e fuel = some (candidateAt b k) ∧
      SlugFree posts e (candidateAt b k) ∧
      ∀ j, j < k → ¬ SlugFree posts e (candidateAt b j)) := by
  constructor
  · intro hb
    rw [ensureUniqueSlug, if_pos hb]
  · intro hb
    obtain ⟨m, hm, hfree⟩ := hgood hb
    have hbadm : slugBad posts e (candidateAt b m) = false :=
      (slugBad_false_iff_slugFree posts e _ hpos).mpr hfree
    obtain ⟨s, hs⟩ := ensureUniqueSlugLoop_complete posts b e fuel 0
      ⟨m, Nat.zero_le m, by omega, hbadm⟩
    obtain ⟨k, -, rfl, hgoodk, hbadlt⟩ :=
      ensureUniqueSlugLoop_sound posts b e fuel 0 s hs
    refine ⟨k, ?_, (slugBad_false_iff_slugFree posts e _ hpos).mp hgoodk, ?_⟩
    · rw [ensureUniqueSlug, if_neg hb]
      exact hs
    · intro j hj hfreej
      have hb2 := hbadlt j (Nat.zero_le j) hj
      rw [(slugBad_false_iff_slugFree posts e _ hpos).mpr hfreej] at hb2
      exact Bool.false_ne_true hb2

theorem ensureUniqueSlug_returns_first_free_candidate_witness :
    ∃ k, ensureUniqueSlug [] "admin" 0 2 = some (candidateAt "admin" k) ∧
      SlugFree [] 0 (candidateAt "admin" k) ∧
      ∀ j, j < k → ¬ SlugFree [] 0 (candidateAt "admin" j) :=
  (ensureUniqueSlug_returns_first_free_candidate [] "admin" 0 2
    (by decide) (fun _ => ⟨1, by decide, by decide⟩)).2 (by decide)

theorem slugInvariant_of_reachable_witness :
    SlugInvariant [⟨1, "Hello", "hello", "c", true, 0⟩] :=
  slugInvariant_of_reachable _
    (Reachable.create [] 1 0 "Hello" "c" true 5 "hello"
      [⟨1, "Hello", "hello", "c", true, 0⟩] Reachable.init (by decide))

/-- C7 counterexample: the state holding only a post with id 2, title
"Hello" and slug "hello-2" is reachable (create "Hello" twice, delete the
first post), yet updating post 2 with its unchanged title returns slug
"hello", not the "hello-2" it already had. -/
theorem updatePost_same_title_counterexample :
    Reachable [⟨2, "Hello", "hello-2", "c", true, 0⟩] ∧
    (updatePost [⟨2, "Hello", "hello-2", "c", true, 0⟩] 2 "Hello" "c" true 3).map
        Prod.fst = some "hello" ∧
    "hello" ≠ "hello-2" := by
  refine ⟨?_, by decide, by decide⟩
  have h1 : Reachable [⟨1, "Hello", "hello", "c", true, 0⟩] :=
    Reachable.create [] 1 0 "Hello" "c" true 5 "hello" _ Reachable.init (by decide)
  have h2 : Reachable [⟨1, "Hello", "hello", "c", true, 0⟩,
      ⟨2, "Hello", "hello-2", "c", true, 0⟩] :=
    Reachable.create _ 2 0 "Hello" "c" true 5 "hello-2" _ h1 (by decide)
  have h3 := Reachable.remove _ 1 h2
  have hdel : deletePost [⟨1, "Hello", "hello", "c", true, 0⟩,
      ⟨2, "Hello", "hello-2", "c", true, 0⟩] 1
      = [⟨2, "Hello", "hello-2", "c", true, 0⟩] := by decide
  exact hdel ▸ h3

/-- C7 amended: updating a post with its own id and unchanged title
returns the slug it already had, provided its stored slug equals the base
slug generated from its title (which a suffixed slug whose base has been
freed violates), in a store satisfying the slug-uniqueness invariant. -/
theorem updatePost_same_title_same_slug (posts : List Post) (p : Post)
    (content : String) (published : Bool) (fuel : Nat)
    (hinv : SlugInvariant posts) (hp : p ∈ posts) (hid : 0 < p.id)
    (hbase : generateSlug p.title = p.slug) (hne : p.slug ≠ "") (hfuel : 0 < fuel) :
    ∃ posts2, updatePost posts p.id p.title content published fuel
      = some (p.slug, posts2) := by
  have hbase2 : baseSlug p.title = p.slug := by
    rw [baseSlug, hbase, if_neg hne]
  obtain ⟨f, rfl⟩ : ∃ f, fuel = f + 1 := ⟨fuel - 1, by omega⟩
  have hres : isReservedSlug p.slug = false := hinv.2 p hp
  have hcount : slugConflictCount posts p.slug p.id = 0 := by
    rw [slugConflictCount, if_pos hid, List.length_eq_zero, List.filter_eq_nil_iff]
    intro q hq
    simp only [Bool.and_eq_true, beq_iff_eq, bne_iff_ne, not_and]
    intro hslug hne2
    exact absurd hslug (hinv.1 q hq p hp hne2)
  have halloc : ensureUniqueSlug posts p.slug p.id (f + 1) = some p.slug := by
    rw [ensureUniqueSlug, if_neg hne, ensureUniqueSlugLoop]
    simp [hres, hcount]
  refine ⟨posts.map (fun q => if q.id == p.id then
    { q with title := p.title, slug := p.slug, content := content,
             published := published } else q), ?_⟩
  simp only [updatePost, hbase2, halloc]

theorem updatePost_same_title_same_slug_witness :
    ∃ posts2, updatePost [⟨5, "My Title", "my-title", "c", true, 0⟩] 5
      "My Title" "x" false 1 = some ("my-title", posts2) :=
  updatePost_same_title_same_slug [⟨5, "My Title", "my-title", "c", true, 0⟩]
    ⟨5, "My Title", "my-title", "c", true, 0⟩ "x" false 1
    (by decide) (by decide) (by decide) (by decide) (by decide) (by decide)

/-- The `UPDATE ... WHERE id = ?` row rewrite touches nothing when no row
has the id. -/
theorem map_ite_id_of_absent (posts : List Post) (id : Int) (f : Post → Post)
    (habs : ∀ p ∈ posts, p.id ≠ id) :
    posts.map (fun p => if p.id == id then f p else p) = posts := by
  induction posts with
  | nil => rfl
  | cons a l ih =>
    simp only [List.map_cons]
    rw [if_neg (by simp only [beq_iff_eq]; exact habs a (List.mem_cons_self a l)),
      ih (fun p hp => habs p (List.mem_cons_of_mem a hp))]

/-- C10: when no stored post has the target id, `updatePost` still
succeeds, returning the freshly allocated slug, and the posts table is
left completely unchanged (the `UPDATE` matches zero rows). -/
theorem updatePost_absent_id (posts : List Post) (id : Int)
    (title content : String) (published : Bool) (fuel : Nat)
    (habs : ∀ p ∈ posts, p.id ≠ id) :
    (∀ s posts2, updatePost posts id title content published fuel = some (s, posts2) →
      posts2 = posts) ∧
    ((∃ m, m < fuel ∧ slugBad posts id (candidateAt (baseSlug title) m) = false) →
      ∃ s, updatePost posts id title content published fuel = some (s, posts)) := by
  constructor
  · intro s posts2 h
    rw [updatePost] at h
    cases halloc : ensureUniqueSlug posts (baseSlug title) id fuel with
    | none => rw [halloc] at h; simp at h
    | some u =>
      rw [halloc] at h
      simp only [Option.some.injEq, Prod.mk.injEq] at h
      obtain ⟨-, h2⟩ := h
      rw [← h2]
      exact map_ite_id_of_absent posts id _ habs
  · rintro ⟨m, hm, hbadm⟩
    obtain ⟨s, hs⟩ := ensureUniqueSlugLoop_complete posts (baseSlug title) id fuel 0
      ⟨m, Nat.zero_le m, by omega, hbadm⟩
    have halloc : ensureUniqueSlug posts (baseSlug title) id fuel = some s := by
      rw [ensureUniqueSlug, if_neg (baseSlug_ne_empty title)]
      exact hs
    refine ⟨s, ?_⟩
    simp only [updatePost, halloc]
    rw [map_ite_id_of_absent posts id _ habs]

theorem updatePost_absent_id_witness :
    ∃ s, updatePost [⟨1, "A", "a", "x", true, 0⟩] 99 "B" "y" false 1
      = some (s, [⟨1, "A", "a", "x", true, 0⟩]) :=
  (updatePost_absent_id [⟨1, "A", "a", "x", true, 0⟩] 99 "B" "y" false 1
    (by decide)).2 ⟨0, by decide, by decide⟩

/-- C4 counterexample: the slug availability check passes against an empty
table, a concurrent create inserts slug "hello" first, and the `INSERT`
then hits the unique index: `createPost` surfaces the wrapped store error
to its caller instead of retrying with the next suffix. -/
theorem createPost_race_counterexample :
    createPostRacy [] [⟨1, "Hello", "hello", "c", true, 0⟩] 2 0 "Hello" "c" true 5
      = Except.error "inserting post" := rfl

/-- C4 amended: a slug uniqueness violation at insert time is surfaced to
the caller as the wrapped insert error; no retry with the next suffix
occurs. -/
theorem createPost_insert_conflict_error (postsAtCheck postsAtInsert : List Post)
    (newId createdAt : Int) (title content : String) (published : Bool)
    (fuel : Nat) (s : String)
    (halloc : ensureUniqueSlug postsAtCheck (baseSlug title) 0 fuel = some s)
    (hconf : ∃ q ∈ postsAtInsert, q.slug = s) :
    createPostRacy postsAtCheck postsAtInsert newId createdAt title content
      published fuel = Except.error "inserting post" := by
  obtain ⟨q, hq, hslug⟩ := hconf
  have hany : postsAtInsert.any (fun q2 => q2.slug == s) = true :=
    List.any_eq_true.mpr ⟨q, hq, by simp [hslug]⟩
  have hins : insertPostUnique postsAtInsert
      ⟨newId, title, s, content, published, createdAt⟩ = none := by
    have hany2 : postsAtInsert.any (fun q2 =>
        q2.slug == (⟨newId, title, s, content, published, createdAt⟩ : Post).slug)
        = true := hany
    rw [insertPostUnique, hany2]
    simp
  simp only [createPostRacy, halloc, hins]

theorem createPost_insert_conflict_error_witness :
    createPostRacy [] [⟨1, "Hi", "hi", "c", true, 0⟩] 2 0 "Hi" "x" true 3
      = Except.error "inserting post" :=
  createPost_insert_conflict_error [] [⟨1, "Hi", "hi", "c", true, 0⟩] 2 0 "Hi" "x"
    true 3 "hi" (by decide) ⟨⟨1, "Hi", "hi", "c", true, 0⟩, by decide, rfl⟩

/-! ### Session manager -/

theorem getSession_of_mem (sessions : List Session) (token : String) (now : Int)
    (s : Session) (hnd : (sessions.map Session.token).Nodup)
    (hmem : s ∈ sessions) (ht : s.token = token) (he : now < s.expiresAt) :
    getSession sessions token now = some s := by
  induction sessions with
  | nil => exact absurd hmem (List.not_mem_nil s)
  | cons a l ih =>
    rw [List.map_cons, List.nodup_cons] at hnd
    rcases List.mem_cons.1 hmem with rfl | hmem2
    · rw [getSession, List.find?_cons_of_pos _ (by simp [ht, he])]
    · have hat : a.token ≠ token := by
        intro hat
        exact hnd.1 (hat ▸ ht ▸ List.mem_map_of_mem Session.token hmem2)
      rw [getSession, List.find?_cons_of_neg _ (by simp [hat])]
      exact ih hnd.2 hmem2

/-- C5: `getSession` returns a session exactly when a stored row carries
that token and its expiry is strictly later than the current time; a row
whose expiry has passed but that has not been purged is reported as
absent, like a missing token. -/
theorem getSession_iff_live_row (sessions : List Session) (token : String)
    (now : Int) (hnd : (sessions.map Session.token).Nodup) :
    (∀ s : Session, getSession sessions token now = some s ↔
      (s ∈ sessions ∧ s.token = token ∧ now < s.expiresAt)) ∧
    ((∀ s ∈ sessions, s.token = token → s.expiresAt ≤ now) →
      getSession sessions token now = none) := by
  constructor
  · intro s
    constructor
    · intro h
      have hmem := List.mem_of_find?_eq_some h
      have hpred := List.find?_some h
      simp only [Bool.and_eq_true, beq_iff_eq, decide_eq_true_eq] at hpred
      exact ⟨hmem, hpred.1, hpred.2⟩
    · rintro ⟨hmem, ht, he⟩
      exact getSession_of_mem sessions token now s hnd hmem ht he
  · intro hall
    rw [getSession, List.find?_eq_none]
    intro x hx
    simp only [Bool.and_eq_true, beq_iff_eq, decide_eq_true_eq, not_and]
    intro ht he
    exact absurd he (by have := hall x hx ht; omega)

theorem getSession_iff_live_row_witness :
    getSession [Session.mk "t" 1 10] "t" 5 = some (Session.mk "t" 1 10) ∧
    getSession [Session.mk "u" 1 3] "u" 5 = none :=
  ⟨((getSession_iff_live_row [Session.mk "t" 1 10] "t" 5 (by decide)).1
      (Session.mk "t" 1 10)).mpr ⟨by decide, rfl, by decide⟩,
   (getSession_iff_live_row [Session.mk "u" 1 3] "u" 5 (by decide)).2
      (by decide)⟩

/-- C8 counterexample: a session whose `expires_at` equals the current
time exactly is not removed by the cleanup, though the claim says every
row with `expires_at <= now` is deleted. -/
theorem cleanupExpiredSessions_boundary_counterexample :
    (Session.mk "t" 1 5).expiresAt ≤ 5 ∧
    Session.mk "t" 1 5 ∈ cleanupExpiredSessions [Session.mk "t" 1 5] 5 := by
  decide

/-- C8 amended: the cleanup deletes exactly the rows with
`expires_at` strictly less than the current time; every row with
`expires_at >= now` — including one equal to `now` exactly — is kept. -/
theorem cleanupExpiredSessions_keeps_iff (sessions : List Session) (now : Int)
    (s : Session) :
    s ∈ cleanupExpiredSessions sessions now ↔ (s ∈ sessions ∧ now ≤ s.expiresAt) := by
  rw [cleanupExpiredSessions, List.mem_filter]
  simp [Int.not_lt]

/-! ### CSRF guard -/

theorem nat_lor_eq_zero (a b : Nat) : a ||| b = 0 ↔ a = 0 ∧ b = 0 := by
  constructor
  · intro h
    constructor <;> apply Nat.eq_of_testBit_eq <;> intro i <;>
      have hb := congrArg (fun n => Nat.testBit n i) h <;>
      simp only [Nat.testBit_lor, Nat.zero_testBit, Bool.or_eq_false_iff] at hb
    · simp [hb.1, Nat.zero_testBit]
    · simp [hb.2, Nat.zero_testBit]
  · rintro ⟨rfl, rfl⟩
    simp

theorem ctFold_fst_eq_zero :
    ∀ (xs ys : List Nat) (v : Nat), xs.length = ys.length →
      ((ctFold v xs ys).1 = 0 ↔ (v = 0 ∧ xs = ys)) := by
  intro xs
  induction xs with
  | nil =>
    intro ys v h
    cases ys with
    | nil => simp [ctFold]
    | cons y ys => simp at h
  | cons x xs ih =>
    intro ys v h
    cases ys with
    | nil => simp at h
    | cons y ys =>
      simp only [ctFold]
      rw [ih ys (v ||| (x ^^^ y)) (by simpa using h), nat_lor_eq_zero,
        Nat.xor_eq_zero]
      constructor
      · rintro ⟨⟨hv, rfl⟩, rfl⟩
        exact ⟨hv, rfl⟩
      · rintro ⟨hv, he⟩
        obtain ⟨rfl, rfl⟩ := List.cons.injEq .. ▸ he
        exact ⟨⟨hv, rfl⟩, rfl⟩

/-- C6: CSRF validation succeeds exactly when both tokens are non-empty
and byte-for-byte equal; it fails when either is empty, on any length
mismatch, and on any differing byte. -/
theorem validateCSRF_iff_nonempty_eq (cookieToken formToken : List Nat) :
    validateCSRF cookieToken formToken = true ↔
      (cookieToken ≠ [] ∧ formToken ≠ [] ∧ cookieToken = formToken) := by
  rw [validateCSRF]
  by_cases hc : cookieToken = []
  · simp [hc]
  by_cases hf : formToken = []
  · simp [hc, hf]
  rw [if_neg (by simp [hc, hf])]
  rw [constantTimeCompare]
  by_cases hlen : cookieToken.length = formToken.length
  · rw [if_neg (by omega)]
    by_cases hz : (ctFold 0 cookieToken formToken).1 = 0
    · rw [if_pos hz]
      have heq := ((ctFold_fst_eq_zero cookieToken formToken 0 hlen).1 hz).2
      simp [hc, hf, heq]
    · rw [if_neg hz]
      have hne : cookieToken ≠ formToken := fun he =>
        hz ((ctFold_fst_eq_zero cookieToken formToken 0 hlen).2 ⟨rfl, he⟩)
      simp [hc, hf, hne]
  · rw [if_pos hlen]
    have hne : cookieToken ≠ formToken := fun he => hlen (he ▸ rfl)
    simp [hc, hf, hne]

theorem ctFold_snd :
    ∀ (xs ys : List Nat) (v : Nat), (ctFold v xs ys).2 = min xs.length ys.length := by
  intro xs
  induction xs with
  | nil =>
    intro ys v
    cases ys <;> simp [ctFold]
  | cons x xs ih =>
    intro ys v
    cases ys with
    | nil => simp [ctFold]
    | cons y ys =>
      simp only [ctFold, List.length_cons, ih]
      omega

/-- C9: under the loop-iteration cost model of the embedded
`ConstantTimeCompare`, comparing any two non-empty, equal-length, unequal
token pairs of a common length costs the same number of steps — the cost
never depends on where the first mismatching byte occurs. -/
theorem ctCompareSteps_independent_of_mismatch (x y u v : List Nat)
    (hxy : x.length = y.length) (huv : u.length = v.length)
    (hxu : x.length = u.length) (_hx : x ≠ []) (_hu : u ≠ [])
    (_hne1 : x ≠ y) (_hne2 : u ≠ v) :
    ctCompareSteps x y = ctCompareSteps u v := by
  rw [ctCompareSteps, ctCompareSteps, if_neg (by omega), if_neg (by omega),
    ctFold_snd, ctFold_snd]
  omega

theorem ctCompareSteps_independent_of_mismatch_witness :
    ctCompareSteps [1, 2] [1, 3] = ctCompareSteps [9, 2] [0, 2] :=
  ctCompareSteps_independent_of_mismatch [1, 2] [1, 3] [9, 2] [0, 2]
    (by decide) (by decide) (by decide) (by decide) (by decide)
    (by decide) (by decide)

/-! ### Slug generator -/

/-- C2: `generateSlug` performs, in order: lowercasing, replacing spaces
with hyphens, deleting every character outside `[a-z0-9-]`, collapsing
hyphen runs, and trimming leading/trailing hyphens — and matches the
documented examples; as a Lean function it is pure and deterministic. -/
theorem generateSlug_is_spec_pipeline :
    (∀ title : String, generateSlug title =
      String.mk (trimHyphens (collapseHyphens (List.filter isSlugChar
        (List.map (fun c => if c = ' ' then '-' else c)
          (List.map goToLower title.data)))))) ∧
    generateSlug "Hello, World!" = "hello-world" ∧
    generateSlug "It's a Test" = "its-a-test" ∧
    generateSlug "---Hello" = "hello" ∧
    generateSlug "!@#$%" = "" := by
  refine ⟨?_, by decide, by decide, by decide, by decide⟩
  intro title
  have hmap : List.map (fun c => if c == ' ' then '-' else c)
      (List.map goToLower title.data)
      = List.map (fun c => if c = ' ' then '-' else c)
        (List.map goToLower title.data) :=
    List.map_congr_left (fun c _ => by by_cases h : c = ' ' <;> simp [h])
  rw [generateSlug, lowerStep, spaceStep, stripStep, hmap]

/-- Fidelity of the race model: when no concurrent write intervenes
(`postsAtCheck = postsAtInsert`), the racy create agrees with the
sequential `createPost` — the unique-index check can never fire, because
the allocator just verified the slug is unused. -/
theorem createPostRacy_toOption (posts : List Post) (newId createdAt : Int)
    (title content : String) (published : Bool) (fuel : Nat) :
    (createPostRacy posts posts newId createdAt title content published fuel).toOption
      = createPost posts newId createdAt title content published fuel := by
  cases halloc : ensureUniqueSlug posts (baseSlug title) 0 fuel with
  | none => simp [createPostRacy, createPost, halloc, Except.toOption]
  | some u =>
    have hgood := ensureUniqueSlug_result_good posts (baseSlug title) 0 fuel u
      (baseSlug_ne_empty title) halloc
    have hfresh := slugBad_false_fresh posts u hgood
    have hany : posts.any (fun q =>
        q.slug == (⟨newId, title, u, content, published, createdAt⟩ : Post).slug)
        = false := by
      rw [List.any_eq_false]
      intro q hq
      simp [hfresh q hq]
    have hins : insertPostUnique posts
        ⟨newId, title, u, content, published, createdAt⟩
        = some (posts ++ [⟨newId, title, u, content, published, createdAt⟩]) := by
      rw [insertPostUnique, hany]
      simp
    simp [createPostRacy, createPost, halloc, hins, Except.toOption]

end GoBlog
